import Mathlib

/-!
Verification development for the financial-assessment chat front-end
(`src/app/page.tsx`).  The client-side logic — reconciliation of backend
per-trait arrays into locally materialized `TraitData` records, score
aggregation, termination handling, and the persona-generation gating —
is embedded shallowly below.  Numbers from JSON payloads are modelled as
`ℚ`, timestamps as `ℕ`, and the four per-trait arrays of a backend
response as total functions from trait name to `Option (List _)`
(`none` models an absent field, which the code defaults to `[]` via
`|| []`).
-/

/-- Represents a chat message between user and AI (interface `Message`).
The numeric `Date.now()` clock is modelled by a `ℕ` timestamp and the
string id is kept as in the source (`toString` of the clock value). -/
structure Message where
  id : String
  type : String
  content : String
  timestamp : ℕ
deriving DecidableEq, Repr

/-- Represents assessment data for a specific financial trait (interface
`TraitData`).  Optional fields are `Option`; `score`/`confidence` are
numbers, `sentence`/`rationale` strings. -/
structure TraitData where
  trait : String
  score : Option ℚ
  confidence : Option ℚ
  sentence : Option String
  rationale : Option String
  timestamp : ℕ
deriving DecidableEq, Repr

/-- The backend `updated_state` payload.  The four per-trait arrays are
accessed in the source as `data.updated_state[`${trait}_score`]` and so
on; they are modelled as functions from the trait name, with `none` for
an absent (or `null`) field. -/
structure BackendState where
  continue_conversation : Bool
  persona : String
  current_priority : Option String
  current_iteration : Option ℤ
  score : String → Option (List ℚ)
  confidence : String → Option (List ℚ)
  sentences : String → Option (List String)
  rationale : String → Option (List String)

/-- A `/chat` response payload: `{response, updated_state}`. -/
structure ChatResponse where
  response : String
  updated_state : BackendState

/-- Main state structure for the chat application (interface
`ChatState`): messages, trait assessments, priority/iteration, and the
opaque backend state blob. -/
structure ChatState where
  messages : List Message
  traitData : List TraitData
  currentPriority : Option String
  currentIteration : Option ℤ
  backendState : Option BackendState

/-- The component's full `useState` state relevant to the specified
behavior: `chatState` plus the scalar flags. -/
structure AppState where
  userId : Option String
  sessionId : Option String
  input : String
  isLoading : Bool
  showPersonaPopup : Bool
  personaData : String
  isGeneratingPersona : Bool
  isTerminated : Bool
  shouldContinue : Bool
  chatState : ChatState

/-- List of financial traits that the system can assess (the `traits`
constant in the source). -/
def traits : List String :=
  ["awareness", "self_control", "preparedness", "information_seeking",
   "risk_seeking", "reaction_to_external_events"]

/-- Per-trait running aggregate built by `getLatestTraitScores`:
`{totalScore, totalConfidence, count}`. -/
structure Aggregate where
  totalScore : ℚ
  totalConfidence : ℚ
  count : ℕ
deriving DecidableEq, Repr

/-- One output record of `getLatestTraitScores`. -/
structure TraitScore where
  trait : String
  score : ℚ
  confidence : ℚ
deriving DecidableEq, Repr

/-- Insertion-ordered update of the `traitAggregates` object: if the key
is present its totals are updated in place, otherwise a fresh entry is
appended (JS object insertion-order semantics). -/
def updateAgg (l : List (String × Aggregate)) (t : String) (s c : ℚ) :
    List (String × Aggregate) :=
  match l with
  | [] => [(t, { totalScore := s, totalConfidence := c, count := 1 })]
  | p :: rest =>
    if p.1 = t then
      (p.1, { totalScore := p.2.totalScore + s,
              totalConfidence := p.2.totalConfidence + c,
              count := p.2.count + 1 }) :: rest
    else p :: updateAgg rest t s c

/-- One step of the `chatState.traitData.forEach` loop in
`getLatestTraitScores`: records with an undefined score are skipped;
otherwise the totals are accumulated with `data.confidence || 0` for an
absent confidence. -/
def aggregateStep (acc : List (String × Aggregate)) (d : TraitData) :
    List (String × Aggregate) :=
  match d.score with
  | some s => updateAgg acc d.trait s (d.confidence.getD 0)
  | none => acc

/-- The `traitAggregates` object after the whole `forEach` loop. -/
def buildAggregates (td : List TraitData) : List (String × Aggregate) :=
  td.foldl aggregateStep []

/-- The `Object.entries(...).map` body: averages per trait. -/
def avgOf (p : String × Aggregate) : TraitScore :=
  { trait := p.1,
    score := p.2.totalScore / (p.2.count : ℚ),
    confidence := p.2.totalConfidence / (p.2.count : ℚ) }

/-- Calculates average scores and confidence levels for each trait
(`getLatestTraitScores` in the source). -/
def getLatestTraitScores (td : List TraitData) : List TraitScore :=
  (buildAggregates td).map avgOf

/-- Truthiness of `sentences[i]` in JS: the index is in range and the
string is non-empty. -/
def sentenceTruthyAt (sentences : List String) (i : ℕ) : Bool :=
  match sentences.get? i with
  | some s => decide (s ≠ "")
  | none => false

/-- One reconciliation pass of `handleSubmit` for a single trait: the
guard compares the three lengths against `existingCount`, then indices
from `existingCount` up to `maxLength - 1` are materialized when the
sentence is truthy or the score is not `undefined`.  Timestamps are
stamped afterwards by `stampTimestamps` (the source stamps
`currentTime + newTraitData.length` at push time). -/
def materializeTrait (existingCount : ℕ) (scores confidences : List ℚ)
    (sentences rationales : List String) (t : String) : List TraitData :=
  if decide (scores.length > existingCount)
      || decide (sentences.length > existingCount)
      || decide (rationales.length > existingCount) then
    ((List.range (Nat.max (Nat.max scores.length sentences.length)
        (Nat.max rationales.length confidences.length))).drop
      existingCount).filterMap (fun i =>
      if sentenceTruthyAt sentences i || decide (i < scores.length) then
        some { trait := t, score := scores.get? i,
               confidence := confidences.get? i,
               sentence := sentences.get? i,
               rationale := rationales.get? i, timestamp := 0 }
      else none)
  else []

/-- Number of already-materialized records for a trait
(`chatState.traitData.filter((t) => t.trait === trait).length`). -/
def countFor (st : ChatState) (t : String) : ℕ :=
  (st.traitData.filter (fun d => decide (d.trait = t))).length

/-- The `scores` array read from the response, defaulting to `[]`. -/
def scoresOf (u : BackendState) (t : String) : List ℚ := (u.score t).getD []

/-- The `confidences` array read from the response, defaulting to `[]`. -/
def confidencesOf (u : BackendState) (t : String) : List ℚ :=
  (u.confidence t).getD []

/-- The `sentences` array read from the response, defaulting to `[]`. -/
def sentencesOf (u : BackendState) (t : String) : List String :=
  (u.sentences t).getD []

/-- The `rationales` array read from the response, defaulting to `[]`. -/
def rationalesOf (u : BackendState) (t : String) : List String :=
  (u.rationale t).getD []

/-- The `maxLength` computed in the source:
`Math.max(scores.length, sentences.length, rationales.length,
confidences.length)`. -/
def maxLenFor (u : BackendState) (t : String) : ℕ :=
  Nat.max (Nat.max (scoresOf u t).length (sentencesOf u t).length)
    (Nat.max (rationalesOf u t).length (confidencesOf u t).length)

/-- Records newly materialized for one trait in one reconciliation. -/
def newTraitRecordsFor (st : ChatState) (u : BackendState) (t : String) :
    List TraitData :=
  materializeTrait (countFor st t) (scoresOf u t) (confidencesOf u t)
    (sentencesOf u t) (rationalesOf u t) t

/-- The full `newTraitData` array built by the `traits.forEach` loop. -/
def newTraitData (st : ChatState) (u : BackendState) : List TraitData :=
  (traits.map (fun t => newTraitRecordsFor st u t)).flatten

/-- Stamps `currentTime.getTime() + newTraitData.length` on each pushed
record: the k-th record of the pass gets timestamp `now + k`. -/
def stampTimestamps (now : ℕ) : List TraitData → List TraitData
  | [] => []
  | r :: rest => { r with timestamp := now } :: stampTimestamps (now + 1) rest

/-- Success continuation of `handleSubmit` applied to the component
state at the time the `/chat` call resolves (the user message was
already appended and the input cleared before the call).  Covers the
`"terminate"` sentinel, the `continue_conversation` persona override,
the trait reconciliation and the final `setChatState`/`setIsLoading`. -/
def chatSuccess (a : AppState) (data : ChatResponse) (now : ℕ) : AppState :=
  let u := data.updated_state
  let isTerm := if data.response = "terminate" then true else a.isTerminated
  let aiContent := if u.continue_conversation then data.response else u.persona
  let newShould := if u.continue_conversation then a.shouldContinue else false
  { a with
    isTerminated := isTerm
    shouldContinue := newShould
    isLoading := false
    chatState :=
      { messages := a.chatState.messages ++
          [{ id := toString (now + 1), type := "ai", content := aiContent,
             timestamp := now }]
        traitData := a.chatState.traitData ++
          stampTimestamps now (newTraitData a.chatState u)
        currentPriority := u.current_priority
        currentIteration := u.current_iteration
        backendState := some u } }

/-- The synthetic assistant error message built in the `catch` block. -/
def errMessage (e : String) (now : ℕ) : Message :=
  { id := toString (now + 1), type := "ai",
    content :=
      "I apologize, but I'm having trouble connecting right now. Please try again.\nError: "
        ++ e,
    timestamp := now }

/-- Failure continuation of `handleSubmit` (the `catch` block) applied
to the component state at the time the `/chat` call was issued: it only
appends the error message and clears the loading flag. -/
def chatFailure (a : AppState) (e : String) (now : ℕ) : AppState :=
  { a with
    isLoading := false
    chatState :=
      { a.chatState with
        messages := a.chatState.messages ++ [errMessage e now] } }

/-- The user-message step at the top of `handleSubmit`: early return on
blank input or while loading, otherwise append the user message, clear
the input and set the loading flag. -/
def addUserMessage (a : AppState) (now : ℕ) : AppState :=
  if a.input.trim = "" || a.isLoading then a
  else
    { a with
      input := ""
      isLoading := true
      chatState :=
        { a.chatState with
          messages := a.chatState.messages ++
            [{ id := toString now, type := "user", content := a.input.trim,
               timestamp := now }] } }

/-- Success continuation of `generatePersona`: store the persona text,
terminate the session, show the popup, clear the generating flag. -/
def generatePersonaSuccess (a : AppState) (p : String) : AppState :=
  { a with
    personaData := p
    isTerminated := true
    showPersonaPopup := true
    isGeneratingPersona := false }

/-- Whether the input form is rendered (`!isTerminated` guard around the
form). -/
def inputFormRendered (a : AppState) : Bool := !a.isTerminated

/-- The `disabled` expression of the text input:
`isLoading || !shouldContinue || isTerminated`. -/
def inputDisabled (a : AppState) : Bool :=
  a.isLoading || !a.shouldContinue || a.isTerminated

/-- The `disabled` expression of the send button:
`isLoading || !input.trim() || !shouldContinue`. -/
def sendButtonDisabled (a : AppState) : Bool :=
  a.isLoading || decide (a.input.trim = "") || !a.shouldContinue

/-- Whether the floating persona button is rendered
(`chatState.backendState && ...`). -/
def personaButtonRendered (a : AppState) : Bool :=
  a.chatState.backendState.isSome

/-- The `disabled` expression of the persona button:
`isGeneratingPersona || latestScores.length < 1`. -/
def personaButtonDisabled (a : AppState) : Bool :=
  a.isGeneratingPersona
    || decide ((getLatestTraitScores a.chatState.traitData).length < 1)

/-- Whether `generatePersona` reaches the `fetch`: it returns early when
`chatState.backendState` is absent. -/
def generatePersonaIssuesCall (a : AppState) : Bool :=
  a.chatState.backendState.isSome

/-- A backend state whose only data is `awareness_sentences`, with an
empty string at index 0 (a skipped "hole") and a real sentence at
index 1. -/
def holeyState : BackendState :=
  { continue_conversation := true, persona := "", current_priority := none,
    current_iteration := none,
    score := fun _ => none, confidence := fun _ => none,
    sentences := fun t => if t = "awareness" then some ["", "hello"] else none,
    rationale := fun _ => none }

/-- A chat response carrying `holeyState`. -/
def holeyResponse : ChatResponse :=
  { response := "ok", updated_state := holeyState }

/-- A backend state whose awareness arrays all have length one and whose
index 0 materializes (score present). -/
def denseState1 : BackendState :=
  { continue_conversation := true, persona := "", current_priority := none,
    current_iteration := none,
    score := fun t => if t = "awareness" then some [3] else none,
    confidence := fun t => if t = "awareness" then some [7] else none,
    sentences := fun t => if t = "awareness" then some ["s0"] else none,
    rationale := fun t => if t = "awareness" then some ["r0"] else none }

/-- A chat response carrying `denseState1`. -/
def denseResponse1 : ChatResponse :=
  { response := "ok", updated_state := denseState1 }

/-- A backend state extending `denseState1`: the awareness arrays now
all have length two. -/
def denseState2 : BackendState :=
  { continue_conversation := true, persona := "", current_priority := none,
    current_iteration := none,
    score := fun t => if t = "awareness" then some [3, 4] else none,
    confidence := fun t => if t = "awareness" then some [7, 8] else none,
    sentences := fun t => if t = "awareness" then some ["s0", "s1"] else none,
    rationale := fun t => if t = "awareness" then some ["r0", "r1"] else none }

/-- A chat response carrying `denseState2`. -/
def denseResponse2 : ChatResponse :=
  { response := "ok", updated_state := denseState2 }

/-- A backend state with every per-trait array absent. -/
def emptyState : BackendState :=
  { continue_conversation := true, persona := "", current_priority := none,
    current_iteration := none,
    score := fun _ => none, confidence := fun _ => none,
    sentences := fun _ => none, rationale := fun _ => none }

/-- A chat response carrying `emptyState`. -/
def emptyResponse : ChatResponse :=
  { response := "ok", updated_state := emptyState }

/-- The assessment history of testable property 3 of the spec: two
awareness assessments with scores 3 and 5 and no confidence. -/
def latestScoresExample : List TraitData :=
  [{ trait := "awareness", score := some 3, confidence := none,
     sentence := none, rationale := none, timestamp := 0 },
   { trait := "awareness", score := some 5, confidence := none,
     sentence := none, rationale := none, timestamp := 1 }]

/-- Initial component state: empty messages and trait data, no backend
blob, not terminated, chatting allowed. -/
def initialAppState : AppState :=
  { userId := none, sessionId := none, input := "", isLoading := false,
    showPersonaPopup := false, personaData := "",
    isGeneratingPersona := false, isTerminated := false,
    shouldContinue := true,
    chatState :=
      { messages := [], traitData := [], currentPriority := none,
        currentIteration := none, backendState := none } }

/-- Lookup of a key in the insertion-ordered aggregate list (reading a
property of the `traitAggregates` object). -/
def findAgg (t : String) : List (String × Aggregate) → Option Aggregate
  | [] => none
  | p :: rest => if p.1 = t then some p.2 else findAgg t rest

/-- The keys of the aggregate list, in insertion order. -/
def aggKeys (l : List (String × Aggregate)) : List String := l.map Prod.fst

/-- Modelled from the spec: the assessments of a trait that carry a
defined score ("per trait that has at least one scored assessment"). -/
def scoredFor (td : List TraitData) (t : String) : List TraitData :=
  td.filter (fun d => decide (d.trait = t) && d.score.isSome)

/-- Modelled from the spec: the sum of the defined scores of a trait,
used to state the arithmetic mean. -/
def sumScoresFor (td : List TraitData) (t : String) : ℚ :=
  ((scoredFor td t).map (fun d => d.score.getD 0)).sum

/-- Modelled from the spec: the sum of the confidences of a trait's
scored assessments, an absent confidence counting as 0. -/
def sumConfFor (td : List TraitData) (t : String) : ℚ :=
  ((scoredFor td t).map (fun d => d.confidence.getD 0)).sum

lemma findAgg_updateAgg (l : List (String × Aggregate)) (t : String) (s c : ℚ) :
    findAgg t (updateAgg l t s c) =
      some (match findAgg t l with
        | none => { totalScore := s, totalConfidence := c, count := 1 }
        | some a => { totalScore := a.totalScore + s,
                      totalConfidence := a.totalConfidence + c,
                      count := a.count + 1 }) := by
  induction l with
  | nil => simp [updateAgg, findAgg]
  | cons p rest ih =>
    by_cases h : p.1 = t
    · simp [updateAgg, findAgg, h]
    · simp [updateAgg, findAgg, h, ih]

lemma findAgg_updateAgg_ne (l : List (String × Aggregate)) (t t' : String)
    (s c : ℚ) (h : t' ≠ t) :
    findAgg t' (updateAgg l t s c) = findAgg t' l := by
  induction l with
  | nil => simp [updateAgg, findAgg, Ne.symm h]
  | cons p rest ih =>
    by_cases hp : p.1 = t
    · subst hp
      simp [updateAgg, findAgg, Ne.symm h]
    · simp [updateAgg, findAgg, hp, ih]

lemma findAgg_foldl_some (t : String) (td : List TraitData) :
    ∀ (acc : List (String × Aggregate)) (a : Aggregate),
      findAgg t acc = some a →
      findAgg t (td.foldl aggregateStep acc) =
        some { totalScore := a.totalScore + sumScoresFor td t,
               totalConfidence := a.totalConfidence + sumConfFor td t,
               count := a.count + (scoredFor td t).length } := by
  induction td with
  | nil =>
    intro acc a h
    simpa [sumScoresFor, sumConfFor, scoredFor] using h
  | cons d rest ih =>
    intro acc a h
    rw [List.foldl_cons]
    cases hd : d.score with
    | none =>
      have hstep : aggregateStep acc d = acc := by simp [aggregateStep, hd]
      rw [hstep, ih acc a h]
      simp [sumScoresFor, sumConfFor, scoredFor, List.filter_cons, hd]
    | some s =>
      by_cases htr : d.trait = t
      · have hstep : aggregateStep acc d = updateAgg acc t s (d.confidence.getD 0) := by
          simp [aggregateStep, hd, htr]
        have hfind : findAgg t (updateAgg acc t s (d.confidence.getD 0)) =
            some { totalScore := a.totalScore + s,
                   totalConfidence := a.totalConfidence + d.confidence.getD 0,
                   count := a.count + 1 } := by
          rw [findAgg_updateAgg, h]
        have hcons : scoredFor (d :: rest) t = d :: scoredFor rest t := by
          simp [scoredFor, List.filter_cons, hd, htr]
        rw [hstep, ih _ _ hfind]
        simp only [sumScoresFor, sumConfFor, hcons, List.map_cons,
          List.sum_cons, List.length_cons, hd, Option.getD_some,
          Option.some.injEq, Aggregate.mk.injEq]
        refine ⟨by ring_nf, by ring_nf, by omega⟩
      · have hstep : aggregateStep acc d = updateAgg acc d.trait s (d.confidence.getD 0) := by
          simp [aggregateStep, hd]
        have hfind : findAgg t (updateAgg acc d.trait s (d.confidence.getD 0)) = some a := by
          rw [findAgg_updateAgg_ne _ _ _ _ _ (Ne.symm htr)]
          exact h
        rw [hstep, ih _ _ hfind]
        simp [sumScoresFor, sumConfFor, scoredFor, List.filter_cons, htr]

lemma findAgg_foldl_none (t : String) (td : List TraitData) :
    ∀ acc : List (String × Aggregate), findAgg t acc = none →
      findAgg t (td.foldl aggregateStep acc) =
        if (scoredFor td t).length = 0 then none
        else some { totalScore := sumScoresFor td t,
                    totalConfidence := sumConfFor td t,
                    count := (scoredFor td t).length } := by
  induction td with
  | nil =>
    intro acc h
    simpa [scoredFor] using h
  | cons d rest ih =>
    intro acc h
    rw [List.foldl_cons]
    cases hd : d.score with
    | none =>
      have hstep : aggregateStep acc d = acc := by simp [aggregateStep, hd]
      rw [hstep, ih acc h]
      simp [sumScoresFor, sumConfFor, scoredFor, List.filter_cons, hd]
    | some s =>
      by_cases htr : d.trait = t
      · have hstep : aggregateStep acc d = updateAgg acc t s (d.confidence.getD 0) := by
          simp [aggregateStep, hd, htr]
        have hfind : findAgg t (updateAgg acc t s (d.confidence.getD 0)) =
            some { totalScore := s, totalConfidence := d.confidence.getD 0,
                   count := 1 } := by
          rw [findAgg_updateAgg, h]
        have hcons : scoredFor (d :: rest) t = d :: scoredFor rest t := by
          simp [scoredFor, List.filter_cons, hd, htr]
        rw [hstep, findAgg_foldl_some t rest _ _ hfind]
        simp only [sumScoresFor, sumConfFor, hcons, List.map_cons,
          List.sum_cons, List.length_cons, hd, Option.getD_some,
          Nat.succ_ne_zero, if_false, Option.some.injEq, Aggregate.mk.injEq]
        refine ⟨by ring_nf, by ring_nf, by omega⟩
      · have hstep : aggregateStep acc d = updateAgg acc d.trait s (d.confidence.getD 0) := by
          simp [aggregateStep, hd]
        have hfind : findAgg t (updateAgg acc d.trait s (d.confidence.getD 0)) = none := by
          rw [findAgg_updateAgg_ne _ _ _ _ _ (Ne.symm htr)]
          exact h
        rw [hstep, ih _ hfind]
        simp [sumScoresFor, sumConfFor, scoredFor, List.filter_cons, htr]

lemma findAgg_buildAggregates (td : List TraitData) (t : String) :
    findAgg t (buildAggregates td) =
      if (scoredFor td t).length = 0 then none
      else some { totalScore := sumScoresFor td t,
                  totalConfidence := sumConfFor td t,
                  count := (scoredFor td t).length } :=
  findAgg_foldl_none t td [] rfl

lemma nodup_append_singleton {α : Type} {l : List α} {a : α}
    (h : l.Nodup) (ha : a ∉ l) : (l ++ [a]).Nodup := by
  induction l with
  | nil => simp
  | cons x xs ih =>
    rw [List.cons_append, List.nodup_cons]
    rw [List.nodup_cons] at h
    simp only [List.mem_cons, not_or] at ha
    refine ⟨?_, ih h.2 ha.2⟩
    simp only [List.mem_append, List.mem_singleton, not_or]
    exact ⟨h.1, fun he => ha.1 he.symm⟩

lemma aggKeys_nil : aggKeys [] = [] := rfl

lemma aggKeys_cons (p : String × Aggregate) (l : List (String × Aggregate)) :
    aggKeys (p :: l) = p.1 :: aggKeys l := rfl

lemma aggKeys_updateAgg (l : List (String × Aggregate)) (t : String) (s c : ℚ) :
    aggKeys (updateAgg l t s c) =
      if t ∈ aggKeys l then aggKeys l else aggKeys l ++ [t] := by
  induction l with
  | nil => simp [updateAgg, aggKeys]
  | cons p rest ih =>
    by_cases h : p.1 = t
    · simp [updateAgg, h, aggKeys_cons, List.mem_cons]
    · rw [show updateAgg (p :: rest) t s c = p :: updateAgg rest t s c from by
        simp [updateAgg, h]]
      rw [aggKeys_cons, aggKeys_cons, ih]
      have hne : ¬t = p.1 := fun he => h he.symm
      by_cases hm : t ∈ aggKeys rest
      · simp [hm, List.mem_cons, hne]
      · simp [hm, List.mem_cons, hne]

lemma findAgg_eq_none_iff (l : List (String × Aggregate)) (t : String) :
    findAgg t l = none ↔ t ∉ aggKeys l := by
  induction l with
  | nil => simp [findAgg, aggKeys]
  | cons p rest ih =>
    by_cases h : p.1 = t
    · simp [findAgg, aggKeys_cons, h]
    · rw [show findAgg t (p :: rest) = findAgg t rest from by simp [findAgg, h]]
      rw [ih, aggKeys_cons]
      constructor
      · intro hn
        simp only [List.mem_cons, not_or]
        exact ⟨fun he => h he.symm, hn⟩
      · intro hn
        simp only [List.mem_cons, not_or] at hn
        exact hn.2

lemma nodup_aggKeys_foldl (td : List TraitData) :
    ∀ acc : List (String × Aggregate),
      (aggKeys acc).Nodup → (aggKeys (td.foldl aggregateStep acc)).Nodup := by
  induction td with
  | nil => intro acc h; simpa using h
  | cons d rest ih =>
    intro acc h
    rw [List.foldl_cons]
    apply ih
    cases hd : d.score with
    | none => simpa [aggregateStep, hd] using h
    | some s =>
      simp only [aggregateStep, hd]
      rw [aggKeys_updateAgg]
      split
      · exact h
      · next hm => exact nodup_append_singleton h hm

lemma nodup_aggKeys_buildAggregates (td : List TraitData) :
    (aggKeys (buildAggregates td)).Nodup :=
  nodup_aggKeys_foldl td [] (by simp [aggKeys])

lemma findAgg_of_mem (l : List (String × Aggregate))
    (h : (aggKeys l).Nodup) (p : String × Aggregate) (hp : p ∈ l) :
    findAgg p.1 l = some p.2 := by
  induction l with
  | nil => cases hp
  | cons q rest ih =>
    rw [aggKeys, List.map_cons, List.nodup_cons] at h
    rcases List.mem_cons.mp hp with he | hmem
    · subst he
      simp [findAgg]
    · have hne : q.1 ≠ p.1 := by
        intro heq
        exact h.1 (heq ▸ List.mem_map_of_mem Prod.fst hmem)
      simp only [findAgg, hne, if_false]
      exact ih h.2 hmem

lemma length_filter_key (t : String) :
    ∀ l : List (String × Aggregate), (aggKeys l).Nodup →
      (l.filter (fun p => decide (p.1 = t))).length
        = if (findAgg t l).isSome then 1 else 0 := by
  intro l
  induction l with
  | nil => simp [findAgg]
  | cons p rest ih =>
    intro h
    rw [aggKeys, List.map_cons, List.nodup_cons] at h
    by_cases hp : p.1 = t
    · have hnone : findAgg t rest = none :=
        (findAgg_eq_none_iff rest t).mpr (hp ▸ h.1)
      have hlen := ih h.2
      rw [hnone] at hlen
      simp only [Option.isSome_none, Bool.false_eq_true, if_false] at hlen
      simp [List.filter_cons, hp, findAgg, hlen]
    · simp [List.filter_cons, hp, findAgg, ih h.2]

lemma length_filter_map_avgOf (t : String) :
    ∀ l : List (String × Aggregate),
      ((l.map avgOf).filter (fun e => decide (e.trait = t))).length
        = (l.filter (fun p => decide (p.1 = t))).length := by
  intro l
  induction l with
  | nil => rfl
  | cons p rest ih =>
    by_cases hp : p.1 = t
    · simp [List.filter_cons, avgOf, hp, ih]
    · simp [List.filter_cons, avgOf, hp, ih]

lemma updateAgg_ne_nil (l : List (String × Aggregate)) (t : String) (s c : ℚ) :
    updateAgg l t s c ≠ [] := by
  cases l with
  | nil => simp [updateAgg]
  | cons p rest =>
    simp only [updateAgg]
    split <;> simp

lemma foldl_aggregateStep_eq_nil (td : List TraitData) :
    ∀ acc : List (String × Aggregate), td.foldl aggregateStep acc = [] →
      acc = [] ∧ ∀ d ∈ td, d.score = none := by
  induction td with
  | nil =>
    intro acc h
    exact ⟨h, by simp⟩
  | cons d rest ih =>
    intro acc h
    rw [List.foldl_cons] at h
    obtain ⟨h1, h2⟩ := ih _ h
    cases hd : d.score with
    | none =>
      have hstep : aggregateStep acc d = acc := by simp [aggregateStep, hd]
      rw [hstep] at h1
      refine ⟨h1, ?_⟩
      intro x hx
      rcases List.mem_cons.mp hx with he | hmem
      · exact he ▸ hd
      · exact h2 x hmem
    | some s =>
      exfalso
      have hstep : aggregateStep acc d = updateAgg acc d.trait s (d.confidence.getD 0) := by
        simp [aggregateStep, hd]
      rw [hstep] at h1
      exact updateAgg_ne_nil _ _ _ _ h1

lemma foldl_aggregateStep_const (td : List TraitData) :
    (∀ d ∈ td, d.score = none) →
      ∀ acc : List (String × Aggregate), td.foldl aggregateStep acc = acc := by
  induction td with
  | nil => intro _ acc; rfl
  | cons d rest ih =>
    intro h acc
    rw [List.foldl_cons]
    have hd : d.score = none := h d (List.mem_cons_self d rest)
    have hstep : aggregateStep acc d = acc := by simp [aggregateStep, hd]
    rw [hstep]
    exact ih (fun x hx => h x (List.mem_cons_of_mem d hx)) acc

lemma buildAggregates_eq_nil_iff (td : List TraitData) :
    buildAggregates td = [] ↔ ∀ d ∈ td, d.score = none := by
  constructor
  · intro h
    exact (foldl_aggregateStep_eq_nil td [] h).2
  · intro h
    exact foldl_aggregateStep_const td h []

lemma traits_nodup : traits.Nodup := by decide

lemma chatSuccess_traitData (a : AppState) (data : ChatResponse) (now : ℕ) :
    (chatSuccess a data now).chatState.traitData
      = a.chatState.traitData
        ++ stampTimestamps now (newTraitData a.chatState data.updated_state) := rfl

lemma stampTimestamps_filter_length (t : String) :
    ∀ (now : ℕ) (l : List TraitData),
      ((stampTimestamps now l).filter (fun d => decide (d.trait = t))).length
        = (l.filter (fun d => decide (d.trait = t))).length := by
  intro now l
  induction l generalizing now with
  | nil => rfl
  | cons r rest ih =>
    have htr : ({ r with timestamp := now } : TraitData).trait = r.trait := rfl
    simp only [stampTimestamps, List.filter_cons, htr]
    by_cases h : r.trait = t
    · simp [h, ih]
    · simp [h, ih]

lemma mem_materializeTrait_trait (c : ℕ) (scores confidences : List ℚ)
    (sentences rationales : List String) (t : String) :
    ∀ r ∈ materializeTrait c scores confidences sentences rationales t,
      r.trait = t := by
  intro r hr
  unfold materializeTrait at hr
  split at hr
  · rcases List.mem_filterMap.mp hr with ⟨i, _, hfi⟩
    split at hfi
    · cases hfi
      rfl
    · cases hfi
  · cases hr

lemma filter_flatten_traits (f : String → List TraitData)
    (hf : ∀ s, ∀ r ∈ f s, r.trait = s) :
    ∀ l : List String, l.Nodup → ∀ t : String,
      ((l.map f).flatten.filter (fun d => decide (d.trait = t))).length
        = if t ∈ l then (f t).length else 0 := by
  intro l
  induction l with
  | nil => intro _ t; simp
  | cons s rest ih =>
    intro hnd t
    rw [List.nodup_cons] at hnd
    rw [List.map_cons, List.flatten_cons, List.filter_append,
      List.length_append, ih hnd.2 t]
    by_cases hts : t = s
    · subst hts
      have h1 : (f t).filter (fun d => decide (d.trait = t)) = f t := by
        apply List.filter_eq_self.mpr
        intro r hr
        simp [hf t r hr]
      rw [h1]
      simp [List.mem_cons, hnd.1]
    · have hst : ¬s = t := fun he => hts he.symm
      have h1 : (f s).filter (fun d => decide (d.trait = t)) = [] := by
        apply List.filter_eq_nil_iff.mpr
        intro r hr
        simp [hf s r hr, hst]
      rw [h1]
      simp [List.mem_cons, hts]

lemma countFor_chatSuccess (a : AppState) (data : ChatResponse) (now : ℕ)
    (t : String) :
    countFor (chatSuccess a data now).chatState t
      = countFor a.chatState t
        + (if t ∈ traits then
            (newTraitRecordsFor a.chatState data.updated_state t).length
          else 0) := by
  have hf : ∀ s, ∀ r ∈ newTraitRecordsFor a.chatState data.updated_state s,
      r.trait = s := by
    intro s r hr
    exact mem_materializeTrait_trait _ _ _ _ _ _ r hr
  unfold countFor
  rw [chatSuccess_traitData, List.filter_append, List.length_append,
    stampTimestamps_filter_length]
  unfold newTraitData
  rw [filter_flatten_traits _ hf traits traits_nodup t]

lemma length_filterMap_of_isSome {α β : Type} (f : α → Option β) :
    ∀ l : List α, (∀ x ∈ l, (f x).isSome) → (l.filterMap f).length = l.length := by
  intro l
  induction l with
  | nil => intro _; rfl
  | cons x xs ih =>
    intro h
    have hx := h x (List.mem_cons_self x xs)
    rcases Option.isSome_iff_exists.mp hx with ⟨b, hb⟩
    rw [List.filterMap_cons, hb]
    simp only [List.length_cons]
    rw [ih (fun y hy => h y (List.mem_cons_of_mem x hy))]

lemma length_filterMap_le_own {α β : Type} (f : α → Option β) :
    ∀ l : List α, (l.filterMap f).length ≤ l.length := by
  intro l
  induction l with
  | nil => simp
  | cons x xs ih =>
    rw [List.filterMap_cons]
    cases f x
    · exact Nat.le_succ_of_le ih
    · simpa using ih

lemma length_materializeTrait_le (c : ℕ) (scores confidences : List ℚ)
    (sentences rationales : List String) (t : String) :
    (materializeTrait c scores confidences sentences rationales t).length
      ≤ Nat.max (Nat.max scores.length sentences.length)
          (Nat.max rationales.length confidences.length) - c := by
  unfold materializeTrait
  split
  · calc (((List.range _).drop c).filterMap _).length
        ≤ ((List.range _).drop c).length := length_filterMap_le_own _ _
      _ = _ - c := by rw [List.length_drop, List.length_range]
  · simp

lemma materializeTrait_eq_nil (c : ℕ) (scores confidences : List ℚ)
    (sentences rationales : List String) (t : String)
    (h1 : scores.length ≤ c) (h2 : sentences.length ≤ c)
    (h3 : rationales.length ≤ c) :
    materializeTrait c scores confidences sentences rationales t = [] := by
  unfold materializeTrait
  rw [if_neg]
  intro hcond
  simp only [Bool.or_eq_true, decide_eq_true_eq, gt_iff_lt] at hcond
  omega

lemma length_materializeTrait_dense (c L : ℕ) (scores confidences : List ℚ)
    (sentences rationales : List String) (t : String)
    (hs : scores.length = L) (hconf : confidences.length ≤ L)
    (hsent : sentences.length ≤ L) (hrat : rationales.length ≤ L)
    (hc : c ≤ L) :
    (materializeTrait c scores confidences sentences rationales t).length
      = L - c := by
  have hmax : Nat.max (Nat.max scores.length sentences.length)
      (Nat.max rationales.length confidences.length) = L := by
    have h1 : Nat.max scores.length sentences.length = L := by
      rw [hs]
      exact Nat.max_eq_left hsent
    have h2 : Nat.max rationales.length confidences.length ≤ L :=
      Nat.max_le.mpr ⟨hrat, hconf⟩
    rw [h1]
    exact Nat.max_eq_left h2
  rcases Nat.lt_or_ge c L with hcl | hcl
  · have hguard : (decide (scores.length > c) || decide (sentences.length > c)
        || decide (rationales.length > c)) = true := by
      simp only [Bool.or_eq_true, decide_eq_true_eq, gt_iff_lt]
      omega
    unfold materializeTrait
    rw [if_pos hguard, hmax,
      length_filterMap_of_isSome _ _ (fun i hi => ?_),
      List.length_drop, List.length_range]
    have hiL : i < L := List.mem_range.mp (List.mem_of_mem_drop hi)
    have his : i < scores.length := by omega
    simp [his]
  · have hce : c = L := le_antisymm hc hcl
    rw [materializeTrait_eq_nil c scores confidences sentences rationales t
      (by omega) (by omega) (by omega)]
    simp [hce]

/-- Replaces the score array of one trait in a backend payload. -/
def withScoreArr (u : BackendState) (t : String) (v : Option (List ℚ)) :
    BackendState :=
  { u with score := fun s => if s = t then v else u.score s }

/-- Replaces the confidence array of one trait in a backend payload. -/
def withConfidenceArr (u : BackendState) (t : String) (v : Option (List ℚ)) :
    BackendState :=
  { u with confidence := fun s => if s = t then v else u.confidence s }

/-- Replaces the sentences array of one trait in a backend payload. -/
def withSentencesArr (u : BackendState) (t : String) (v : Option (List String)) :
    BackendState :=
  { u with sentences := fun s => if s = t then v else u.sentences s }

/-- Replaces the rationale array of one trait in a backend payload. -/
def withRationaleArr (u : BackendState) (t : String) (v : Option (List String)) :
    BackendState :=
  { u with rationale := fun s => if s = t then v else u.rationale s }

/-- Observable outcome of processing one chat response: messages, trait
data, priority, iteration and the two conversation flags.  The stored
opaque blob is the verbatim response in every case and is not part of
the processing outcome. -/
def processView (a : AppState) :
    List Message × List TraitData × Option String × Option ℤ × Bool × Bool :=
  (a.chatState.messages, a.chatState.traitData, a.chatState.currentPriority,
   a.chatState.currentIteration, a.isTerminated, a.shouldContinue)

lemma newTraitData_congr (st : ChatState) (u1 u2 : BackendState)
    (h : ∀ s ∈ traits, newTraitRecordsFor st u1 s = newTraitRecordsFor st u2 s) :
    newTraitData st u1 = newTraitData st u2 := by
  unfold newTraitData
  congr 1
  exact List.map_congr_left h

lemma newTraitRecordsFor_withScore (st : ChatState) (u : BackendState)
    (t s : String) :
    newTraitRecordsFor st (withScoreArr u t none) s
      = newTraitRecordsFor st (withScoreArr u t (some [])) s := by
  have harr : scoresOf (withScoreArr u t none) s
      = scoresOf (withScoreArr u t (some [])) s := by
    show (if s = t then (none : Option (List ℚ)) else u.score s).getD []
      = (if s = t then some ([] : List ℚ) else u.score s).getD []
    split <;> rfl
  unfold newTraitRecordsFor
  rw [harr]
  rfl

lemma newTraitRecordsFor_withConfidence (st : ChatState) (u : BackendState)
    (t s : String) :
    newTraitRecordsFor st (withConfidenceArr u t none) s
      = newTraitRecordsFor st (withConfidenceArr u t (some [])) s := by
  have harr : confidencesOf (withConfidenceArr u t none) s
      = confidencesOf (withConfidenceArr u t (some [])) s := by
    show (if s = t then (none : Option (List ℚ)) else u.confidence s).getD []
      = (if s = t then some ([] : List ℚ) else u.confidence s).getD []
    split <;> rfl
  unfold newTraitRecordsFor
  rw [harr]
  rfl

lemma newTraitRecordsFor_withSentences (st : ChatState) (u : BackendState)
    (t s : String) :
    newTraitRecordsFor st (withSentencesArr u t none) s
      = newTraitRecordsFor st (withSentencesArr u t (some [])) s := by
  have harr : sentencesOf (withSentencesArr u t none) s
      = sentencesOf (withSentencesArr u t (some [])) s := by
    show (if s = t then (none : Option (List String)) else u.sentences s).getD []
      = (if s = t then some ([] : List String) else u.sentences s).getD []
    split <;> rfl
  unfold newTraitRecordsFor
  rw [harr]
  rfl

lemma newTraitRecordsFor_withRationale (st : ChatState) (u : BackendState)
    (t s : String) :
    newTraitRecordsFor st (withRationaleArr u t none) s
      = newTraitRecordsFor st (withRationaleArr u t (some [])) s := by
  have harr : rationalesOf (withRationaleArr u t none) s
      = rationalesOf (withRationaleArr u t (some [])) s := by
    show (if s = t then (none : Option (List String)) else u.rationale s).getD []
      = (if s = t then some ([] : List String) else u.rationale s).getD []
    split <;> rfl
  unfold newTraitRecordsFor
  rw [harr]
  rfl

/-- A response ending the conversation: `continue_conversation` false
with a persona summary, while `response` still carries a normal reply. -/
def personaEndResponse : ChatResponse where
  response := "normal reply"
  updated_state :=
    { emptyState with
      continue_conversation := false
      persona := "Your persona summary" }

/-- A state with no backend blob and a single unscored assessment
(sentence only, no score). -/
def noScoreState : AppState :=
  { initialAppState with
    chatState :=
      { initialAppState.chatState with
        traitData := [{ trait := "awareness", score := none,
                        confidence := none, sentence := some "observed",
                        rationale := none, timestamp := 0 }] } }

/-- C3: a chat response whose `response` field is the literal string
"terminate" marks the conversation terminated, regardless of the value
of `updated_state.continue_conversation` (which is universally
quantified here and instantiated with `true` in the witness). -/
theorem terminate_sentinel_terminates (a : AppState) (data : ChatResponse)
    (now : ℕ) (h : data.response = "terminate") :
    (chatSuccess a data now).isTerminated = true := by
  unfold chatSuccess
  simp [h]

/-- Witness for `terminate_sentinel_terminates`: the payload has
`continue_conversation = true` yet the session terminates. -/
theorem terminate_sentinel_terminates_witness :
    emptyState.continue_conversation = true
    ∧ (chatSuccess initialAppState
        { response := "terminate", updated_state := emptyState } 0).isTerminated
        = true :=
  ⟨rfl, terminate_sentinel_terminates initialAppState
    { response := "terminate", updated_state := emptyState } 0 rfl⟩

/-- C4: when `continue_conversation` is false the appended assistant
message carries `updated_state.persona` instead of the `response` field,
`shouldContinue` is cleared, and both the text input and the send button
are disabled, so no further user input is accepted. -/
theorem continue_false_shows_persona_and_blocks_input (a : AppState)
    (data : ChatResponse) (now : ℕ)
    (h : data.updated_state.continue_conversation = false) :
    (chatSuccess a data now).chatState.messages
      = a.chatState.messages
        ++ [{ id := toString (now + 1), type := "ai",
              content := data.updated_state.persona, timestamp := now }]
    ∧ (chatSuccess a data now).shouldContinue = false
    ∧ inputDisabled (chatSuccess a data now) = true
    ∧ sendButtonDisabled (chatSuccess a data now) = true := by
  refine ⟨?_, ?_, ?_, ?_⟩ <;>
    simp [chatSuccess, inputDisabled, sendButtonDisabled, h]

/-- Witness for `continue_false_shows_persona_and_blocks_input` at the
concrete `personaEndResponse`. -/
theorem continue_false_shows_persona_and_blocks_input_witness :
    (chatSuccess initialAppState personaEndResponse 0).chatState.messages
      = initialAppState.chatState.messages
        ++ [{ id := toString (0 + 1), type := "ai",
              content := personaEndResponse.updated_state.persona,
              timestamp := 0 }]
    ∧ (chatSuccess initialAppState personaEndResponse 0).shouldContinue = false
    ∧ inputDisabled (chatSuccess initialAppState personaEndResponse 0) = true
    ∧ sendButtonDisabled (chatSuccess initialAppState personaEndResponse 0)
        = true :=
  continue_false_shows_persona_and_blocks_input initialAppState
    personaEndResponse 0 rfl

/-- C5: a failed chat call leaves the messages present when the call was
issued, the trait assessments, the priority/iteration fields and the
opaque backend blob unchanged, and appends exactly one assistant-role
message whose content describes the failure. -/
theorem chat_failure_preserves_state_appends_error (a : AppState)
    (e : String) (now : ℕ) :
    (chatFailure a e now).chatState.messages
      = a.chatState.messages ++ [errMessage e now]
    ∧ (chatFailure a e now).chatState.traitData = a.chatState.traitData
    ∧ (chatFailure a e now).chatState.backendState = a.chatState.backendState
    ∧ (chatFailure a e now).chatState.currentPriority
        = a.chatState.currentPriority
    ∧ (chatFailure a e now).chatState.currentIteration
        = a.chatState.currentIteration
    ∧ (errMessage e now).type = "ai"
    ∧ (errMessage e now).content
        = "I apologize, but I'm having trouble connecting right now. Please try again.\nError: "
          ++ e :=
  ⟨rfl, rfl, rfl, rfl, rfl, rfl, rfl⟩

/-- C8: an absent per-trait array (any of the four kinds) is processed
exactly as the present empty array: the processing outcome — messages,
trait data, priority, iteration, termination flags — is identical.  The
stored opaque blob is the verbatim response in both cases and is outside
the processing outcome. -/
theorem absent_arrays_treated_as_empty (a : AppState) (r : String)
    (u : BackendState) (now : ℕ) (t : String) :
    processView (chatSuccess a
        { response := r, updated_state := withScoreArr u t none } now)
      = processView (chatSuccess a
          { response := r, updated_state := withScoreArr u t (some []) } now)
    ∧ processView (chatSuccess a
        { response := r, updated_state := withConfidenceArr u t none } now)
      = processView (chatSuccess a
          { response := r, updated_state := withConfidenceArr u t (some []) } now)
    ∧ processView (chatSuccess a
        { response := r, updated_state := withSentencesArr u t none } now)
      = processView (chatSuccess a
          { response := r, updated_state := withSentencesArr u t (some []) } now)
    ∧ processView (chatSuccess a
        { response := r, updated_state := withRationaleArr u t none } now)
      = processView (chatSuccess a
          { response := r, updated_state := withRationaleArr u t (some []) } now) := by
  refine ⟨?_, ?_, ?_, ?_⟩
  · have hn : newTraitData a.chatState (withScoreArr u t none)
        = newTraitData a.chatState (withScoreArr u t (some [])) :=
      newTraitData_congr a.chatState _ _
        (fun s _ => newTraitRecordsFor_withScore a.chatState u t s)
    simp only [processView, chatSuccess, hn]
    rfl
  · have hn : newTraitData a.chatState (withConfidenceArr u t none)
        = newTraitData a.chatState (withConfidenceArr u t (some [])) :=
      newTraitData_congr a.chatState _ _
        (fun s _ => newTraitRecordsFor_withConfidence a.chatState u t s)
    simp only [processView, chatSuccess, hn]
    rfl
  · have hn : newTraitData a.chatState (withSentencesArr u t none)
        = newTraitData a.chatState (withSentencesArr u t (some [])) :=
      newTraitData_congr a.chatState _ _
        (fun s _ => newTraitRecordsFor_withSentences a.chatState u t s)
    simp only [processView, chatSuccess, hn]
    rfl
  · have hn : newTraitData a.chatState (withRationaleArr u t none)
        = newTraitData a.chatState (withRationaleArr u t (some [])) :=
      newTraitData_congr a.chatState _ _
        (fun s _ => newTraitRecordsFor_withRationale a.chatState u t s)
    simp only [processView, chatSuccess, hn]
    rfl

/-- C9: a successful persona-generation call terminates the session: the
input form is no longer rendered and the input control is disabled, so
no further user messages can be submitted, independently of any chat
response flags. -/
theorem persona_success_terminates_input (a : AppState) (p : String) :
    (generatePersonaSuccess a p).isTerminated = true
    ∧ inputFormRendered (generatePersonaSuccess a p) = false
    ∧ inputDisabled (generatePersonaSuccess a p) = true := by
  refine ⟨rfl, rfl, ?_⟩
  simp [inputDisabled, generatePersonaSuccess]

/-- C1 counterexample: reconciling `holeyResponse` — whose awareness
sentence array is `["", "hello"]`, index 0 being a skipped hole — twice
from the initial state materializes one awareness record in the first
pass and a second copy of index 1 in the second pass, so the count of
materialized assessments changes beyond the first reconciliation. -/
theorem reconcile_twice_duplicates_on_holes :
    countFor (chatSuccess initialAppState holeyResponse 0).chatState
        "awareness" = 1
    ∧ countFor (chatSuccess (chatSuccess initialAppState holeyResponse 0)
        holeyResponse 1).chatState "awareness" = 2 :=
  ⟨by decide, by decide⟩

/-- C1 amended: re-reconciling the same response adds no assessment
records provided the first reconciliation left, for each trait, at least
as many materialized records as the response's score, sentence and
rationale array lengths (which holds whenever no scanned index is
skipped); in general a skipped hole below a materializing index lets a
re-delivery duplicate assessments. -/
theorem reconcile_twice_adds_nothing_when_saturated (a : AppState)
    (data : ChatResponse) (n1 n2 : ℕ)
    (h : ∀ t ∈ traits,
      (scoresOf data.updated_state t).length
          ≤ countFor (chatSuccess a data n1).chatState t
        ∧ (sentencesOf data.updated_state t).length
          ≤ countFor (chatSuccess a data n1).chatState t
        ∧ (rationalesOf data.updated_state t).length
          ≤ countFor (chatSuccess a data n1).chatState t) :
    ∀ t : String,
      countFor (chatSuccess (chatSuccess a data n1) data n2).chatState t
        = countFor (chatSuccess a data n1).chatState t := by
  intro t
  rw [countFor_chatSuccess]
  by_cases ht : t ∈ traits
  · obtain ⟨h1, h2, h3⟩ := h t ht
    have hnil : newTraitRecordsFor (chatSuccess a data n1).chatState
        data.updated_state t = [] := by
      unfold newTraitRecordsFor
      exact materializeTrait_eq_nil _ _ _ _ _ _ h1 h2 h3
    rw [if_pos ht, hnil]
    rfl
  · rw [if_neg ht]
    omega

/-- Witness for `reconcile_twice_adds_nothing_when_saturated`: after a
dense length-one response, re-delivering it adds nothing. -/
theorem reconcile_twice_adds_nothing_when_saturated_witness :
    countFor (chatSuccess (chatSuccess initialAppState denseResponse1 0)
        denseResponse1 1).chatState "awareness"
      = countFor (chatSuccess initialAppState denseResponse1 0).chatState
          "awareness" :=
  reconcile_twice_adds_nothing_when_saturated initialAppState denseResponse1
    0 1 (by decide) "awareness"

/-- C2: when the four per-trait arrays of two successive responses have
lengths N1 and N2 with N1 ≤ N2 and the state before the first
reconciliation holds at most N1 records for the trait, the second
reconciliation materializes exactly N2 − N1 new records for it. -/
theorem second_reconciliation_adds_difference (a : AppState)
    (r1 r2 : ChatResponse) (n1 n2 : ℕ) (t : String) (N1 N2 : ℕ)
    (ht : t ∈ traits)
    (hs1 : (scoresOf r1.updated_state t).length = N1)
    (hc1 : (confidencesOf r1.updated_state t).length = N1)
    (hsen1 : (sentencesOf r1.updated_state t).length = N1)
    (hr1 : (rationalesOf r1.updated_state t).length = N1)
    (hs2 : (scoresOf r2.updated_state t).length = N2)
    (hc2 : (confidencesOf r2.updated_state t).length = N2)
    (hsen2 : (sentencesOf r2.updated_state t).length = N2)
    (hr2 : (rationalesOf r2.updated_state t).length = N2)
    (hprev : countFor a.chatState t ≤ N1) (h12 : N1 ≤ N2) :
    countFor (chatSuccess (chatSuccess a r1 n1) r2 n2).chatState t
      = countFor (chatSuccess a r1 n1).chatState t + (N2 - N1) := by
  have hlen1 : (newTraitRecordsFor a.chatState r1.updated_state t).length
      = N1 - countFor a.chatState t := by
    unfold newTraitRecordsFor
    exact length_materializeTrait_dense _ N1 _ _ _ _ _ hs1 (le_of_eq hc1)
      (le_of_eq hsen1) (le_of_eq hr1) hprev
  have hcount1 : countFor (chatSuccess a r1 n1).chatState t = N1 := by
    rw [countFor_chatSuccess, if_pos ht, hlen1]
    omega
  have hlen2 : (newTraitRecordsFor (chatSuccess a r1 n1).chatState
      r2.updated_state t).length = N2 - N1 := by
    unfold newTraitRecordsFor
    rw [hcount1]
    exact length_materializeTrait_dense N1 N2 _ _ _ _ _ hs2 (le_of_eq hc2)
      (le_of_eq hsen2) (le_of_eq hr2) h12
  rw [countFor_chatSuccess, if_pos ht, hlen2]

/-- Witness for `second_reconciliation_adds_difference` with N1 = 1 and
N2 = 2 on the awareness trait. -/
theorem second_reconciliation_adds_difference_witness :
    countFor (chatSuccess (chatSuccess initialAppState denseResponse1 0)
        denseResponse2 1).chatState "awareness"
      = countFor (chatSuccess initialAppState denseResponse1 0).chatState
          "awareness" + (2 - 1) :=
  second_reconciliation_adds_difference initialAppState denseResponse1
    denseResponse2 0 1 "awareness" 1 2 (by decide) rfl rfl rfl rfl rfl rfl
    rfl rfl (by decide) (by decide)

/-- C7 counterexample: after a length-one awareness response followed by
a response whose arrays are all absent, the reachable state holds one
awareness record while the most recent response's maximum array length
is zero, so the claimed invariant fails. -/
theorem materialized_count_can_exceed_latest_response :
    countFor (chatSuccess (chatSuccess initialAppState denseResponse1 0)
        emptyResponse 1).chatState "awareness" = 1
    ∧ maxLenFor emptyResponse.updated_state "awareness" = 0 :=
  ⟨by decide, by decide⟩

/-- C7 amended: every reconciliation only appends to the existing trait
records, the count after reconciling never exceeds the maximum of the
prior count and the response's maximum per-trait array length, and — 
provided the prior count does not already exceed that maximum array
length, i.e. the backend arrays have not shrunk below what was
materialized — the count stays bounded by the most recent response's
maximum array length. -/
theorem reconcile_only_appends_and_bounded (a : AppState)
    (data : ChatResponse) (now : ℕ) (t : String) :
    (∃ l, (chatSuccess a data now).chatState.traitData
        = a.chatState.traitData ++ l)
    ∧ countFor (chatSuccess a data now).chatState t
        ≤ Nat.max (countFor a.chatState t) (maxLenFor data.updated_state t)
    ∧ (countFor a.chatState t ≤ maxLenFor data.updated_state t →
        countFor (chatSuccess a data now).chatState t
          ≤ maxLenFor data.updated_state t) := by
  have hle : (newTraitRecordsFor a.chatState data.updated_state t).length
      ≤ maxLenFor data.updated_state t - countFor a.chatState t := by
    unfold newTraitRecordsFor maxLenFor
    exact length_materializeTrait_le _ _ _ _ _ _
  refine ⟨⟨_, chatSuccess_traitData a data now⟩, ?_, ?_⟩
  · rw [countFor_chatSuccess]
    have h1 : countFor a.chatState t
        ≤ Nat.max (countFor a.chatState t) (maxLenFor data.updated_state t) :=
      Nat.le_max_left _ _
    have h2 : maxLenFor data.updated_state t
        ≤ Nat.max (countFor a.chatState t) (maxLenFor data.updated_state t) :=
      Nat.le_max_right _ _
    revert h1 h2
    generalize Nat.max (countFor a.chatState t)
      (maxLenFor data.updated_state t) = M
    intro h1 h2
    by_cases ht : t ∈ traits
    · rw [if_pos ht]
      omega
    · rw [if_neg ht]
      omega
  · intro hcm
    rw [countFor_chatSuccess]
    by_cases ht : t ∈ traits
    · rw [if_pos ht]
      omega
    · rw [if_neg ht]
      omega

/-- Witness for `reconcile_only_appends_and_bounded`: from the initial
state the awareness count stays within the length-one response's
maximum array length. -/
theorem reconcile_only_appends_and_bounded_witness :
    countFor (chatSuccess initialAppState denseResponse1 0).chatState
        "awareness"
      ≤ maxLenFor denseResponse1.updated_state "awareness" :=
  (reconcile_only_appends_and_bounded initialAppState denseResponse1 0
    "awareness").2.2 (by decide)

/-- C6: `getLatestTraitScores` yields exactly one summary record per
trait having at least one assessment with a defined score (traits never
scored are omitted); each record's score is the arithmetic mean of the
trait's defined scores and its confidence is the sum of its confidences
(absent counted as 0) divided by the number of scored assessments; and
on `[{awareness, 3}, {awareness, 5}]` with no confidences the result is
`{awareness: {score: 4, confidence: 0}}`. -/
theorem aggregate_scores_mean_and_presence (td : List TraitData) (t : String) :
    (((getLatestTraitScores td).filter (fun e => decide (e.trait = t))).length
        = if (scoredFor td t).length = 0 then 0 else 1)
    ∧ (∀ e ∈ getLatestTraitScores td, e.trait = t →
        e.score = sumScoresFor td t / ((scoredFor td t).length : ℚ)
        ∧ e.confidence = sumConfFor td t / ((scoredFor td t).length : ℚ))
    ∧ getLatestTraitScores latestScoresExample
        = [{ trait := "awareness", score := 4, confidence := 0 }] := by
  refine ⟨?_, ?_, ?_⟩
  · unfold getLatestTraitScores
    rw [length_filter_map_avgOf,
      length_filter_key t _ (nodup_aggKeys_buildAggregates td),
      findAgg_buildAggregates]
    by_cases h0 : (scoredFor td t).length = 0
    · simp [h0]
    · simp [h0]
  · intro e he ht
    rcases List.mem_map.mp he with ⟨p, hp, hep⟩
    have hfind := findAgg_of_mem _ (nodup_aggKeys_buildAggregates td) p hp
    have hp1 : p.1 = t := by
      rw [← ht, ← hep]
      rfl
    rw [hp1, findAgg_buildAggregates] at hfind
    by_cases h0 : (scoredFor td t).length = 0
    · rw [if_pos h0] at hfind
      cases hfind
    · rw [if_neg h0] at hfind
      have hp2 : p.2 = { totalScore := sumScoresFor td t,
                         totalConfidence := sumConfFor td t,
                         count := (scoredFor td t).length } :=
        (Option.some.inj hfind).symm
      have hes : e.score = p.2.totalScore / (p.2.count : ℚ) := by
        rw [← hep]
        rfl
      have hec : e.confidence = p.2.totalConfidence / (p.2.count : ℚ) := by
        rw [← hep]
        rfl
      rw [hes, hec, hp2]
      exact ⟨rfl, rfl⟩
  · norm_num [getLatestTraitScores, latestScoresExample, buildAggregates,
      aggregateStep, updateAgg, avgOf, List.foldl]

/-- Witness for `aggregate_scores_mean_and_presence`: the concrete
example record satisfies the mean and confidence equations. -/
theorem aggregate_scores_mean_and_presence_witness :
    ({ trait := "awareness", score := 4, confidence := 0 } : TraitScore).score
        = sumScoresFor latestScoresExample "awareness"
          / ((scoredFor latestScoresExample "awareness").length : ℚ)
    ∧ ({ trait := "awareness", score := 4,
         confidence := 0 } : TraitScore).confidence
        = sumConfFor latestScoresExample "awareness"
          / ((scoredFor latestScoresExample "awareness").length : ℚ) := by
  have hmem : ({ trait := "awareness", score := 4,
                 confidence := 0 } : TraitScore)
      ∈ getLatestTraitScores latestScoresExample := by
    norm_num [getLatestTraitScores, latestScoresExample, buildAggregates,
      aggregateStep, updateAgg, avgOf, List.foldl]
  exact (aggregate_scores_mean_and_presence latestScoresExample
    "awareness").2.1 _ hmem rfl

/-- C10: the persona action is gated: when the opaque backend blob is
absent the button is not rendered and `generatePersona` issues no
network call, and the button is disabled exactly while a persona call is
outstanding or no trait has an assessment with a defined score. -/
theorem persona_gating (a : AppState) :
    (a.chatState.backendState = none →
      personaButtonRendered a = false ∧ generatePersonaIssuesCall a = false)
    ∧ (personaButtonDisabled a = true ↔
        (a.isGeneratingPersona = true
          ∨ ∀ d ∈ a.chatState.traitData, d.score = none)) := by
  constructor
  · intro h
    unfold personaButtonRendered generatePersonaIssuesCall
    rw [h]
    exact ⟨rfl, rfl⟩
  · unfold personaButtonDisabled
    rw [Bool.or_eq_true, decide_eq_true_eq]
    constructor
    · rintro (h | h)
      · exact Or.inl h
      · right
        have hz : (getLatestTraitScores a.chatState.traitData).length = 0 := by
          omega
        unfold getLatestTraitScores at hz
        rw [List.length_map] at hz
        exact (buildAggregates_eq_nil_iff _).mp (List.length_eq_zero.mp hz)
    · rintro (h | h)
      · exact Or.inl h
      · right
        have hb : buildAggregates a.chatState.traitData = [] :=
          (buildAggregates_eq_nil_iff _).mpr h
        unfold getLatestTraitScores
        rw [List.length_map, hb]
        simp

/-- Witness for `persona_gating` at a state with no backend blob and a
single unscored assessment: no render, no call, disabled button. -/
theorem persona_gating_witness :
    personaButtonRendered noScoreState = false
    ∧ generatePersonaIssuesCall noScoreState = false
    ∧ personaButtonDisabled noScoreState = true := by
  have h := persona_gating noScoreState
  exact ⟨(h.1 rfl).1, (h.1 rfl).2, h.2.mpr (Or.inr (by decide))⟩
